import Mathlib

/-!
Verification of the in-memory task CRUD server (`challenge/server.js`),
the registration/login endpoints (bcrypt + PostgreSQL lesson code), and
the JWT authentication middleware (protected-routes lesson code), against
their natural-language specification.

Conventions of the shallow embedding:
* `new Date()` timestamps are modelled as a `Nat` clock value `now`
  supplied to each handler.
* JavaScript `undefined` for an absent body/query field is `Option.none`.
* Each HTTP handler is a pure function from the store and the request
  data to the new store and a response value; response constructors
  record the status code and JSON shape of the corresponding
  `res.status(...).json(...)` call.
-/

set_option autoImplicit false

namespace TaskServer

/-- A task object as built by `POST /tasks/` and mutated by `PUT /tasks/:id`
in `challenge/server.js`.  Fields mirror the object literal in the source:
`id`, `title`, `completed`, `createdAt`, `updatedAt`; `description` is absent
(`none`) until a `PUT` supplies one.  Note the source's task objects carry no
owner field of any kind. -/
structure Task where
  id : Nat
  title : String
  description : Option String
  completed : Bool
  createdAt : Nat
  updatedAt : Nat
deriving Repr, DecidableEq

/-- Responses produced by the handlers in `challenge/server.js`:
`ok` is `res.json(task)` (200), `okList` is `res.json(array)` (200),
`created` is `res.status(201).json(newTask)`, `deletedMsg` is
`res.json(message Task deleted)` (200), and `notFound` is
`res.status(404).json(error Task not found)`. -/
inductive TaskResponse where
  | ok (t : Task)
  | okList (ts : List Task)
  | created (t : Task)
  | deletedMsg
  | notFound
deriving Repr, DecidableEq

/-- The body of `GET /tasks`: `req.query.completed` is compared with the
exact strings `'true'` and `'false'`; anything else falls to the final
`else` branch returning the whole array. -/
def listTasks (tasks : List Task) (completed : Option String) : List Task :=
  if completed = some "true" then tasks.filter (fun t => t.completed == true)
  else if completed = some "false" then tasks.filter (fun t => t.completed == false)
  else tasks

/-- Handler of `GET /tasks` (store unchanged, 200 with the selected list). -/
def getTasksH (tasks : List Task) (completed : Option String) :
    List Task × TaskResponse :=
  (tasks, .okList (listTasks tasks completed))

/-- Handler of `GET /tasks/:id`: `tasks.find(t => t.id === parseInt(id))`,
200 with the task when found, else 404. -/
def getTaskH (tasks : List Task) (id : Nat) : List Task × TaskResponse :=
  match tasks.find? (fun t => t.id == id) with
  | some t => (tasks, .ok t)
  | none => (tasks, .notFound)

/-- The object literal built by `POST /tasks/`:
`id: tasks.length + 1`, the submitted title unchanged, `completed: false`,
both timestamps set to the current time, no description field. -/
def newTaskFor (tasks : List Task) (title : String) (now : Nat) : Task :=
  { id := tasks.length + 1
    title := title
    description := none
    completed := false
    createdAt := now
    updatedAt := now }

/-- Handler of `POST /tasks/`: pushes the new task onto the array and
answers 201 with it.  The source performs no validation of the title. -/
def postTask (tasks : List Task) (title : String) (now : Nat) :
    List Task × TaskResponse :=
  (tasks ++ [newTaskFor tasks title now], .created (newTaskFor tasks title now))

/-- Handler of `DELETE /tasks/:id`: `findIndex` then `splice(index, 1)`,
200 with a message when found, else 404. -/
def deleteTaskH (tasks : List Task) (id : Nat) : List Task × TaskResponse :=
  match tasks.findIdx? (fun t => t.id == id) with
  | some i => (tasks.eraseIdx i, .deletedMsg)
  | none => (tasks, .notFound)

/-- The request body of `PUT /tasks/:id`.  The handler reads exactly
`req.body.title`, `req.body.description` and `req.body.completed`
(each guarded by `!== undefined`); any other field of the JSON body —
modelled here by `ownerId` — is never read. -/
structure UpdateBody where
  title : Option String
  description : Option String
  completed : Option Bool
  ownerId : Option Nat
deriving Repr, DecidableEq

/-- The in-place mutation performed by `PUT /tasks/:id` on the found task:
each of title/description/completed is overwritten only when present in the
body, then `updatedAt` is set to the current time. -/
def applyUpdate (t : Task) (body : UpdateBody) (now : Nat) : Task :=
  let t1 := match body.title with
    | some s => { t with title := s }
    | none => t
  let t2 := match body.description with
    | some s => { t1 with description := some s }
    | none => t1
  let t3 := match body.completed with
    | some b => { t2 with completed := b }
    | none => t2
  { t3 with updatedAt := now }

/-- `tasks.find(t => t.id === parseInt(id))` followed by in-place mutation:
the first task with the given id is replaced by its updated version, the
rest of the array is untouched.  `none` when no task matches. -/
def updateFirst (tasks : List Task) (id : Nat) (body : UpdateBody) (now : Nat) :
    Option (Task × List Task) :=
  match tasks with
  | [] => none
  | t :: rest =>
    if t.id = id then
      some (applyUpdate t body now, applyUpdate t body now :: rest)
    else
      match updateFirst rest id body now with
      | some (u, rest2) => some (u, t :: rest2)
      | none => none

/-- Handler of `PUT /tasks/:id`: 200 with the updated task when found,
404 (store untouched) otherwise. -/
def putTask (tasks : List Task) (id : Nat) (body : UpdateBody) (now : Nat) :
    List Task × TaskResponse :=
  match updateFirst tasks id body now with
  | some (u, tasks2) => (tasks2, .ok u)
  | none => (tasks, .notFound)

/-- Whitespace trimming as the spec's task-store contract uses it
(title compared to empty after trimming): drop whitespace characters from
both ends.  The server source itself never trims nor validates titles. -/
def trimWs (s : String) : String :=
  String.mk
    (List.reverse (List.dropWhile Char.isWhitespace
      (List.reverse (List.dropWhile Char.isWhitespace s.data))))

/-- The store reached by: create `a`, create `b`, `DELETE /tasks/1`,
create `c` — the deletion shrinks the array, so the next `id`
(`tasks.length + 1`) collides with the surviving task's id. -/
def storeAfterDeleteCreate : List Task :=
  (postTask (deleteTaskH (postTask (postTask [] "a" 0).1 "b" 1).1 1).1 "c" 2).1

end TaskServer

namespace AuthMw


/-- Outcome of the token-verification callback of `jwt.verify` in the
protected-routes lesson: either the decoded payload's user id, or an error
(bad signature, malformed token, or expired). -/
inductive VerifyResult where
  | ok (userId : Nat)
  | err
deriving Repr, DecidableEq

/-- `const token = authHeader && authHeader.split(' ')[1]` followed by the
`if (!token)` guard: the bearer credential is the second space-separated
component of the authorization header; a missing header, a header without a
second component, or an empty second component all leave no credential. -/
def extractToken (authHeader : Option String) : Option String :=
  match authHeader with
  | none => none
  | some h =>
    match (h.splitOn " ").get? 1 with
    | some t => if t = "" then none else some t
    | none => none

/-- Result of the `authenticateToken` middleware:
`rejectedTokenRequired` is `res.status(401).json(error Access token
required)`, `rejectedInvalid` is `res.status(403).json(error Invalid
token)`, and `authorized userId` is `req.user = user; next()`. -/
inductive MwResult where
  | rejectedTokenRequired
  | rejectedInvalid
  | authorized (userId : Nat)
deriving Repr, DecidableEq

/-- The `authenticateToken` middleware of the protected-routes lesson,
parameterized by the token service's `verify`. -/
def authenticateToken (verify : String → VerifyResult)
    (authHeader : Option String) : MwResult :=
  match extractToken authHeader with
  | none => .rejectedTokenRequired
  | some token =>
    match verify token with
    | .err => .rejectedInvalid
    | .ok userId => .authorized userId

/-- A protected route's observable outcome: the middleware's 401 or 403
error response, or the handler's result. -/
inductive RouteResult (R : Type) where
  | tokenRequired401
  | invalid403
  | handled (r : R)
deriving Repr, DecidableEq

/-- `app.get(path, authenticateToken, handler)`: the handler runs, with the
user id the middleware attached to the request, only when the middleware
called `next()`; a rejection answers immediately. -/
def runProtected {R : Type} (verify : String → VerifyResult)
    (authHeader : Option String) (handler : Nat → R) : RouteResult R :=
  match authenticateToken verify authHeader with
  | .rejectedTokenRequired => .tokenRequired401
  | .rejectedInvalid => .invalid403
  | .authorized userId => .handled (handler userId)

end AuthMw

namespace AuthApi


/-- A row of the `users` table from the authentication lessons:
`id SERIAL PRIMARY KEY`, `email ... UNIQUE NOT NULL`, `password` holding the
bcrypt hash. -/
structure UserRec where
  id : Nat
  email : String
  password : String
deriving Repr, DecidableEq

/-- `SELECT * FROM users WHERE email = $1`. -/
def selectByEmail (db : List UserRec) (email : String) : List UserRec :=
  db.filter (fun u => u.email = email)

/-- Whether some row already holds the given email. -/
def emailPresent (db : List UserRec) (email : String) : Bool :=
  db.any (fun u => u.email = email)

/-- Outcome of `INSERT INTO users (email, password) VALUES ($1, $2)
RETURNING id, email` against the table's `UNIQUE` constraint on `email`:
either the new table state plus the returned row, or a unique-constraint
violation (which the endpoint's `catch` turns into a 500). -/
inductive InsertResult where
  | inserted (db2 : List UserRec) (u : UserRec)
  | uniqueViolation
deriving Repr, DecidableEq

/-- The insert: the serial id is one more than the current row count; the
unique constraint rejects a duplicate email atomically at the storage
layer. -/
def insertUser (db : List UserRec) (email password : String) : InsertResult :=
  if emailPresent db email then .uniqueViolation
  else .inserted (db ++ [{ id := db.length + 1, email := email, password := password }])
    { id := db.length + 1, email := email, password := password }

/-- Responses of `POST /register`: `created` is
`res.status(201).json(message User created, user)`, `userExists` is
`res.status(400).json(error User already exists)` — the endpoint's
duplicate-email response — and `serverError` is the `catch` clause's
`res.status(500).json(error err.message)`. -/
inductive RegisterResponse where
  | created (id : Nat) (email : String)
  | userExists
  | serverError
deriving Repr, DecidableEq

/-- The `POST /register` handler run in isolation: an application-level
SELECT for the email, then (only when the SELECT came back empty) the
INSERT.  The two storage operations are separate; only the INSERT itself is
atomic. -/
def register (db : List UserRec) (email password : String) :
    List UserRec × RegisterResponse :=
  if (selectByEmail db email).length > 0 then (db, .userExists)
  else
    match insertUser db email password with
    | .inserted db2 u => (db2, .created u.id u.email)
    | .uniqueViolation => (db, .serverError)

/-- Progress of one in-flight `POST /register` call: `pc = 0` before its
SELECT, `pc = 1` between its SELECT and its INSERT, `pc = 2` responded. -/
structure CallState where
  pc : Nat
  response : Option RegisterResponse
deriving Repr, DecidableEq

/-- A call that has not yet touched the database. -/
def initCall : CallState := { pc := 0, response := none }

/-- One atomic storage step of an in-flight `POST /register` call: its
SELECT (deciding between answering 400 and proceeding), or its INSERT
(answering 201, or 500 when the unique constraint fires inside the catch).
A finished call steps to itself. -/
def stepCall (db : List UserRec) (email password : String) (c : CallState) :
    List UserRec × CallState :=
  if c.pc = 0 then
    if (selectByEmail db email).length > 0 then
      (db, { pc := 2, response := some .userExists })
    else (db, { pc := 1, response := none })
  else if c.pc = 1 then
    match insertUser db email password with
    | .inserted db2 u => (db2, { pc := 2, response := some (.created u.id u.email) })
    | .uniqueViolation => (db, { pc := 2, response := some .serverError })
  else (db, c)

/-- Interleaved execution of two concurrent `POST /register` calls with the
same email: the schedule says at each point which call performs its next
atomic storage step (`true` for the first call). -/
def runTwo (sched : List Bool) (db : List UserRec) (email p1 p2 : String)
    (c1 c2 : CallState) : List UserRec × CallState × CallState :=
  match sched with
  | [] => (db, c1, c2)
  | true :: rest =>
    let r := stepCall db email p1 c1
    runTwo rest r.1 email p1 p2 r.2 c2
  | false :: rest =>
    let r := stepCall db email p2 c2
    runTwo rest r.1 email p1 p2 c1 r.2

/-- Whether a call has responded with the 201 success. -/
def isCreated : Option RegisterResponse → Bool
  | some (.created _ _) => true
  | _ => false

/-- The race invariant: a call that already answered 201 has its email in
the table, and the two calls never both answer 201. -/
def inv2 (db : List UserRec) (email : String) (c1 c2 : CallState) : Prop :=
  (isCreated c1.response = true → emailPresent db email = true) ∧
  (isCreated c2.response = true → emailPresent db email = true) ∧
  ¬(isCreated c1.response = true ∧ isCreated c2.response = true)

/-- Responses of `POST /login`: `success` is
`res.json(message Login successful, user)` (200) and `invalidCredentials`
is `res.status(401).json(error Invalid credentials)` — issued verbatim by
both failure paths of the handler. -/
inductive LoginResponse where
  | success (id : Nat) (email : String)
  | invalidCredentials
deriving Repr, DecidableEq

/-- The `POST /login` handler: SELECT by email; an empty result answers
401; otherwise `bcrypt.compare` (abstracted as the `check` argument) of the
submitted password against the stored hash decides between 200 and the same
401. -/
def login (db : List UserRec) (check : String → String → Bool)
    (email password : String) : LoginResponse :=
  match selectByEmail db email with
  | [] => .invalidCredentials
  | user :: _ =>
    if check password user.password then .success user.id user.email
    else .invalidCredentials

end AuthApi

namespace TaskServer


/-- Claim C3 counterexample: `POST /tasks/` with the whitespace-only title
`"   "` (which trims to empty) does not reject with a 400 validation error;
it creates and returns a task carrying that title, and the store grows by
one.  The source handler performs no title validation at all. -/
theorem post_whitespace_title_creates :
    trimWs "   " = "" ∧
    (postTask [] "   " 0).2 =
      TaskResponse.created
        { id := 1, title := "   ", description := none, completed := false,
          createdAt := 0, updatedAt := 0 } ∧
    (postTask [] "   " 0).1.length = 1 := by
  refine ⟨rfl, rfl, rfl⟩

/-- Claim C3 (amended): the create handler performs no validation: for every
store, title and time, it appends a task with exactly the submitted title
(empty or whitespace-only included) and answers 201 with it; no request is
ever rejected. -/
theorem post_never_validates (tasks : List Task) (title : String) (now : Nat) :
    (postTask tasks title now).1 = tasks ++ [newTaskFor tasks title now] ∧
    (postTask tasks title now).2 = TaskResponse.created (newTaskFor tasks title now) ∧
    (newTaskFor tasks title now).title = title := by
  exact ⟨rfl, rfl, rfl⟩

/-- Claim C9: for every create request whose title is non-empty after
trimming, the returned task has `completed = false` and both its creation
and last-modified timestamps set to the request time.  (In the source this
holds for every title; the hypothesis restricts to the claim's premise.) -/
theorem post_valid_title_defaults (tasks : List Task) (title : String) (now : Nat)
    (h : trimWs title ≠ "") :
    (postTask tasks title now).2 = TaskResponse.created (newTaskFor tasks title now) ∧
    (newTaskFor tasks title now).completed = false ∧
    (newTaskFor tasks title now).createdAt = now ∧
    (newTaskFor tasks title now).updatedAt = now := by
  exact ⟨rfl, rfl, rfl, rfl⟩

/-- Witness for C9 at the concrete request `title = "buy milk"`, `now = 5`. -/
theorem post_valid_title_defaults_witness :
    trimWs "buy milk" ≠ "" ∧
    ((postTask [] "buy milk" 5).2 = TaskResponse.created (newTaskFor [] "buy milk" 5) ∧
      (newTaskFor [] "buy milk" 5).completed = false ∧
      (newTaskFor [] "buy milk" 5).createdAt = 5 ∧
      (newTaskFor [] "buy milk" 5).updatedAt = 5) :=
  ⟨by decide, post_valid_title_defaults [] "buy milk" 5 (by decide)⟩

/-- Claim C10: when the `completed` query parameter is present but is
neither exactly `'true'` nor exactly `'false'`, `GET /tasks` answers with
the full task list, identically to the response with the parameter absent. -/
theorem list_unrecognized_filter_is_full_list (tasks : List Task) (s : String)
    (h1 : s ≠ "true") (h2 : s ≠ "false") :
    getTasksH tasks (some s) = getTasksH tasks none ∧
    getTasksH tasks none = (tasks, TaskResponse.okList tasks) := by
  constructor
  · unfold getTasksH listTasks
    simp [h1, h2]
  · rfl

/-- Claim C1 counterexample: the server attaches no identity to requests
and enforces no ownership, so a request from any user other than the
creator is the same function application.  After one task is created
(by "user A"), a `GET /tasks/:id` for its id issued by anybody returns the
task's data with 200 — not the 404 the claim requires — and `PUT` and
`DELETE` likewise act on the task instead of answering 404. -/
theorem nonowner_requests_reach_task :
    (getTaskH (postTask [] "task of A" 0).1 1).2 =
      TaskResponse.ok (newTaskFor [] "task of A" 0) ∧
    TaskResponse.ok (newTaskFor [] "task of A" 0) ≠ TaskResponse.notFound ∧
    (putTask (postTask [] "task of A" 0).1 1
        { title := some "hijacked", description := none,
          completed := none, ownerId := none } 3).2 ≠ TaskResponse.notFound ∧
    (deleteTaskH (postTask [] "task of A" 0).1 1).1 = [] :=
  ⟨rfl, fun h => TaskResponse.noConfusion h,
    fun h => TaskResponse.noConfusion h, rfl⟩

/-- Auxiliary characterization: `updateFirst` misses exactly when no stored
task has the requested id. -/
lemma updateFirst_eq_none_iff (tasks : List Task) (id : Nat) (body : UpdateBody)
    (now : Nat) :
    updateFirst tasks id body now = none ↔ ∀ t ∈ tasks, t.id ≠ id := by
  induction tasks with
  | nil => simp [updateFirst]
  | cons t rest ih =>
    by_cases h : t.id = id
    · simp [updateFirst, h]
    · rw [updateFirst, if_neg h]
      cases hrec : updateFirst rest id body now with
      | none =>
        rw [hrec] at ih
        simp only [List.mem_cons]
        constructor
        · intro _ x hx
          rcases hx with rfl | hx
          · exact h
          · exact (ih.mp rfl) x hx
        · intro _; trivial
      | some p =>
        rw [hrec] at ih
        simp only [List.mem_cons]
        constructor
        · intro hcontra; cases hcontra
        · intro hall
          exact absurd (fun x hx => hall x (Or.inr hx)) (fun hrest => by
            simpa using ih.mpr hrest)

/-- Claim C1 (amended): requests carry no user identity and the handlers
perform no ownership check; for each of `GET /tasks/:id`, `PUT /tasks/:id`
and `DELETE /tasks/:id` the 404 outcome occurs exactly when no task in the
store has the requested id — never because of who issued the request. -/
theorem notFound_iff_id_absent (tasks : List Task) (id : Nat) (body : UpdateBody)
    (now : Nat) :
    ((getTaskH tasks id).2 = TaskResponse.notFound ↔ ∀ t ∈ tasks, t.id ≠ id) ∧
    ((putTask tasks id body now).2 = TaskResponse.notFound ↔ ∀ t ∈ tasks, t.id ≠ id) ∧
    ((deleteTaskH tasks id).2 = TaskResponse.notFound ↔ ∀ t ∈ tasks, t.id ≠ id) := by
  refine ⟨?_, ?_, ?_⟩
  · rw [getTaskH]
    cases hfind : tasks.find? (fun t => t.id == id) with
    | none =>
      rw [List.find?_eq_none] at hfind
      simpa using fun t ht => by simpa using hfind t ht
    | some t =>
      have ht : t ∈ tasks := List.mem_of_find?_eq_some hfind
      have hid : t.id = id := by simpa using List.find?_some hfind
      simp only []
      constructor
      · intro hcontra; cases hcontra
      · intro hall; exact absurd hid (hall t ht)
  · rw [putTask]
    cases hupd : updateFirst tasks id body now with
    | none =>
      simpa using (updateFirst_eq_none_iff tasks id body now).mp hupd
    | some p =>
      have : ¬ ∀ t ∈ tasks, t.id ≠ id := fun hall => by
        have := (updateFirst_eq_none_iff tasks id body now).mpr hall
        rw [hupd] at this; cases this
      constructor
      · intro hcontra; cases hcontra
      · intro hall; exact absurd hall this
  · rw [deleteTaskH]
    cases hidx : tasks.findIdx? (fun t => t.id == id) with
    | none =>
      rw [List.findIdx?_eq_none_iff] at hidx
      simpa using fun t ht => by simpa using hidx t ht
    | some i =>
      have : ¬ ∀ t ∈ tasks, t.id ≠ id := fun hall => by
        have hnone : tasks.findIdx? (fun t => t.id == id) = none := by
          rw [List.findIdx?_eq_none_iff]
          intro t ht
          simpa using hall t ht
        rw [hidx] at hnone; cases hnone
      constructor
      · intro hcontra; cases hcontra
      · intro hall; exact absurd hall this

/-- Witness for the amended C1 on the one-task store: id 2 is absent, so
all three handlers answer 404 for it, while id 1 is present, so `GET` does
not answer 404 for it. -/
theorem notFound_iff_id_absent_witness :
    (getTaskH [newTaskFor [] "a" 0] 2).2 = TaskResponse.notFound ∧
    (deleteTaskH [newTaskFor [] "a" 0] 2).2 = TaskResponse.notFound ∧
    ¬(getTaskH [newTaskFor [] "a" 0] 1).2 = TaskResponse.notFound := by
  have h := notFound_iff_id_absent [newTaskFor [] "a" 0] 2
    { title := none, description := none, completed := none, ownerId := none } 0
  have h1 := notFound_iff_id_absent [newTaskFor [] "a" 0] 1
    { title := none, description := none, completed := none, ownerId := none } 0
  refine ⟨h.1.mpr ?_, h.2.2.mpr ?_, fun hc => ?_⟩
  · intro t ht
    rw [List.mem_singleton] at ht
    rw [ht]
    decide
  · intro t ht
    rw [List.mem_singleton] at ht
    rw [ht]
    decide
  · have := h1.1.mp hc (newTaskFor [] "a" 0) (List.mem_singleton.mpr rfl)
    exact this rfl

/-- Claim C4 counterexample: after creating the task titled `first` at
time 0 and then `second` at time 1, `GET /tasks` (no filter) answers with
`first` before `second`: the head of the returned array is the oldest
created task, not the most recently created one. -/
theorem list_order_is_oldest_first :
    (getTasksH (postTask (postTask [] "first" 0).1 "second" 1).1 none).2 =
      TaskResponse.okList
        [ { id := 1, title := "first", description := none, completed := false,
            createdAt := 0, updatedAt := 0 },
          { id := 2, title := "second", description := none, completed := false,
            createdAt := 1, updatedAt := 1 } ] ∧
    (0 : Nat) < 1 :=
  ⟨rfl, Nat.zero_lt_one⟩

/-- Claim C4 (amended): `GET /tasks` has no owner scoping — it answers with
every stored task — filtered by the completion flag only when the query
parameter is exactly the string `true` or `false`; the order is storage
order, which is creation order oldest-first, because a new task is appended
at the end of the array. -/
theorem list_returns_all_in_insertion_order (tasks : List Task) :
    listTasks tasks (some "true") = tasks.filter (fun t => t.completed == true) ∧
    listTasks tasks (some "false") = tasks.filter (fun t => t.completed == false) ∧
    (∀ s, s ≠ "true" → s ≠ "false" → listTasks tasks (some s) = tasks) ∧
    listTasks tasks none = tasks ∧
    (∀ title now, (postTask tasks title now).1 = tasks ++ [newTaskFor tasks title now]) := by
  refine ⟨rfl, ?_, ?_, rfl, fun title now => rfl⟩
  · rw [listTasks, if_neg (by decide), if_pos rfl]
  · intro s hs1 hs2
    rw [listTasks, if_neg (fun h => hs1 (Option.some.inj h)),
      if_neg (fun h => hs2 (Option.some.inj h))]

/-- Witness for the amended C4 on a concrete two-task store with the
unrecognized parameter value `1`. -/
theorem list_returns_all_witness :
    listTasks
      [ { id := 1, title := "a", description := none, completed := true,
          createdAt := 0, updatedAt := 0 },
        { id := 2, title := "b", description := none, completed := false,
          createdAt := 1, updatedAt := 1 } ] (some "1") =
      [ { id := 1, title := "a", description := none, completed := true,
          createdAt := 0, updatedAt := 0 },
        { id := 2, title := "b", description := none, completed := false,
          createdAt := 1, updatedAt := 1 } ] ∧
    listTasks
      [ { id := 1, title := "a", description := none, completed := true,
          createdAt := 0, updatedAt := 0 },
        { id := 2, title := "b", description := none, completed := false,
          createdAt := 1, updatedAt := 1 } ] (some "true") =
      [ { id := 1, title := "a", description := none, completed := true,
          createdAt := 0, updatedAt := 0 } ] := by
  have h := list_returns_all_in_insertion_order
    [ { id := 1, title := "a", description := none, completed := true,
        createdAt := 0, updatedAt := 0 },
      { id := 2, title := "b", description := none, completed := false,
        createdAt := 1, updatedAt := 1 } ]
  exact ⟨h.2.2.1 "1" (by decide) (by decide), h.1.trans rfl⟩

/-- Claim C5 evaluated at its failing input: after create `a`, create `b`,
delete task 1, create `c`, the store holds two distinct tasks that share
the id 2, so task ids are not unique. -/
theorem duplicate_ids_after_delete :
    storeAfterDeleteCreate.map Task.id = [2, 2] ∧
    ¬ (storeAfterDeleteCreate.map Task.id).Nodup ∧
    storeAfterDeleteCreate.length = 2 := by
  refine ⟨rfl, by decide, rfl⟩

/-- Witness for C10 at the concrete parameter value `"True"` on a two-task
store. -/
theorem list_unrecognized_filter_witness :
    ("True" ≠ "true" ∧ "True" ≠ "false") ∧
    (getTasksH [newTaskFor [] "a" 0] (some "True") = getTasksH [newTaskFor [] "a" 0] none ∧
      getTasksH [newTaskFor [] "a" 0] none =
        ([newTaskFor [] "a" 0], TaskResponse.okList [newTaskFor [] "a" 0])) :=
  ⟨⟨by decide, by decide⟩,
    list_unrecognized_filter_is_full_list [newTaskFor [] "a" 0] "True" (by decide) (by decide)⟩

/-- Field-level description of the task produced by the `PUT` mutation:
`id` and `createdAt` are untouched, `updatedAt` becomes the request time,
and title/description/completed take the body's value when present and keep
the stored one otherwise. -/
lemma applyUpdate_spec (t : Task) (body : UpdateBody) (now : Nat) :
    (applyUpdate t body now).id = t.id ∧
    (applyUpdate t body now).createdAt = t.createdAt ∧
    (applyUpdate t body now).updatedAt = now ∧
    (applyUpdate t body now).title = body.title.getD t.title ∧
    (applyUpdate t body now).completed = body.completed.getD t.completed ∧
    (applyUpdate t body now).description =
      (match body.description with
        | some d => some d
        | none => t.description) := by
  rcases body with ⟨bt, bd, bc, bo⟩
  cases bt <;> cases bd <;> cases bc <;> simp [applyUpdate]

/-- The `PUT` mutation never reads the body's `ownerId` field. -/
lemma applyUpdate_ownerId_irrel (t : Task) (body : UpdateBody) (now : Nat)
    (o : Option Nat) :
    applyUpdate t { body with ownerId := o } now = applyUpdate t body now := by
  rcases body with ⟨bt, bd, bc, bo⟩
  rfl

lemma updateFirst_ownerId_irrel (tasks : List Task) (id : Nat) (body : UpdateBody)
    (now : Nat) (o : Option Nat) :
    updateFirst tasks id { body with ownerId := o } now =
      updateFirst tasks id body now := by
  induction tasks with
  | nil => rfl
  | cons t rest ih =>
    rw [updateFirst, updateFirst, applyUpdate_ownerId_irrel, ih]

/-- Successful `updateFirst` splits the store around the first task with the
requested id and replaces exactly that task with its updated version. -/
lemma updateFirst_eq_some_split (tasks : List Task) (id : Nat) (body : UpdateBody)
    (now : Nat) (u : Task) (tasks2 : List Task)
    (h : updateFirst tasks id body now = some (u, tasks2)) :
    ∃ pre t post, tasks = pre ++ t :: post ∧ (∀ p ∈ pre, p.id ≠ id) ∧ t.id = id ∧
      u = applyUpdate t body now ∧ tasks2 = pre ++ applyUpdate t body now :: post := by
  induction tasks generalizing u tasks2 with
  | nil => simp [updateFirst] at h
  | cons t rest ih =>
    rw [updateFirst] at h
    by_cases hid : t.id = id
    · rw [if_pos hid] at h
      obtain ⟨rfl, rfl⟩ : u = applyUpdate t body now ∧
          tasks2 = applyUpdate t body now :: rest := by
        have h2 := Option.some.inj h
        exact ⟨congrArg Prod.fst h2.symm, congrArg Prod.snd h2.symm⟩
      exact ⟨[], t, rest, rfl, by simp, hid, rfl, rfl⟩
    · rw [if_neg hid] at h
      cases hrec : updateFirst rest id body now with
      | none => rw [hrec] at h; cases h
      | some p =>
        obtain ⟨u2, rest2⟩ := p
        rw [hrec] at h
        obtain ⟨rfl, rfl⟩ : u = u2 ∧ tasks2 = t :: rest2 := by
          have h2 := Option.some.inj h
          exact ⟨congrArg Prod.fst h2.symm, congrArg Prod.snd h2.symm⟩
        obtain ⟨pre, t3, post, heq, hpre, hid3, hu, hrest⟩ := ih u rest2 hrec
        refine ⟨t :: pre, t3, post, by rw [heq, List.cons_append], ?_, hid3, hu,
          by rw [hrest, List.cons_append]⟩
        intro p hp
        rcases List.mem_cons.mp hp with rfl | hp
        · exact hid
        · exact hpre p hp

/-- Claim C6: a successful `PUT /tasks/:id` updates the found task's
last-modified timestamp to the request time and overwrites exactly the
submitted fields among title, description and completed, preserving `id`,
`createdAt` and every other stored task; the body's `ownerId` field is never
read, so the response and the store are identical for any value of it; and
when no task matches the id the response is 404 and the store is unchanged. -/
theorem put_frame_and_ownership (tasks : List Task) (id : Nat) (body : UpdateBody)
    (now : Nat) :
    (∀ u tasks2, putTask tasks id body now = (tasks2, TaskResponse.ok u) →
      ∃ pre t post, tasks = pre ++ t :: post ∧ (∀ p ∈ pre, p.id ≠ id) ∧ t.id = id ∧
        tasks2 = pre ++ u :: post ∧
        u.id = t.id ∧ u.createdAt = t.createdAt ∧ u.updatedAt = now ∧
        u.title = body.title.getD t.title ∧
        u.completed = body.completed.getD t.completed ∧
        u.description =
          (match body.description with
            | some d => some d
            | none => t.description)) ∧
    (∀ o, putTask tasks id { body with ownerId := o } now = putTask tasks id body now) ∧
    ((putTask tasks id body now).2 = TaskResponse.notFound →
      (putTask tasks id body now).1 = tasks) := by
  refine ⟨?_, ?_, ?_⟩
  · intro u tasks2 h
    rw [putTask] at h
    cases hupd : updateFirst tasks id body now with
    | none =>
      rw [hupd] at h
      cases congrArg Prod.snd h
    | some p =>
      obtain ⟨u2, ts2⟩ := p
      rw [hupd] at h
      have h1 : ts2 = tasks2 := congrArg Prod.fst h
      have h2 : u2 = u := TaskResponse.ok.inj (congrArg Prod.snd h)
      subst h1; subst h2
      obtain ⟨pre, t, post, heq, hpre, hid, hu, hts⟩ :=
        updateFirst_eq_some_split tasks id body now u2 ts2 hupd
      obtain ⟨s1, s2, s3, s4, s5, s6⟩ := applyUpdate_spec t body now
      subst hu
      exact ⟨pre, t, post, heq, hpre, hid, hts, s1, s2, s3, s4, s5, s6⟩
  · intro o
    rw [putTask, putTask, updateFirst_ownerId_irrel]
  · rw [putTask]
    cases hupd : updateFirst tasks id body now with
    | none => intro _; rfl
    | some p => intro hcontra; exact absurd hcontra (by cases p; simp)

/-- Witness for C6 on the one-task store holding the task created at time 0
with title `a`: a `PUT` submitting a new title, `completed = true` and an
`ownerId` answers 200 with `updatedAt = 7`, and submitting a different
`ownerId` produces the identical store and response. -/
theorem put_frame_and_ownership_witness :
    (applyUpdate (newTaskFor [] "a" 0)
        { title := some "x", description := none, completed := some true,
          ownerId := some 99 } 7).updatedAt = 7 ∧
    putTask [newTaskFor [] "a" 0] 1
        { title := some "x", description := none, completed := some true,
          ownerId := some 42 } 7 =
      putTask [newTaskFor [] "a" 0] 1
        { title := some "x", description := none, completed := some true,
          ownerId := some 99 } 7 := by
  have h := put_frame_and_ownership [newTaskFor [] "a" 0] 1
    { title := some "x", description := none, completed := some true,
      ownerId := some 99 } 7
  refine ⟨?_, h.2.1 (some 42)⟩
  obtain ⟨pre, t, post, _, _, _, _, _, _, hupd, _⟩ := h.1 _ _ rfl
  exact hupd

end TaskServer

namespace AuthMw

/-- Claim C7: whenever the authorization header carries no bearer
credential, the middleware short-circuits to the rejected state with the 401
credential-required response (`Access token required` in the source) — for
every handler, i.e. the handler never executes; and in general a handler
result is produced only when the middleware reached the authorized state for
the extracted user id. -/
theorem no_credential_rejects_before_handler {R : Type}
    (verify : String → VerifyResult) (authHeader : Option String)
    (handler : Nat → R) (h : extractToken authHeader = none) :
    runProtected verify authHeader handler = RouteResult.tokenRequired401 ∧
    authenticateToken verify authHeader = MwResult.rejectedTokenRequired ∧
    (∀ (v : String → VerifyResult) (ah : Option String) (hd : Nat → R) (r : R),
      runProtected v ah hd = RouteResult.handled r →
      ∃ userId, authenticateToken v ah = MwResult.authorized userId ∧
        r = hd userId) := by
  have hmw : authenticateToken verify authHeader = MwResult.rejectedTokenRequired := by
    rw [authenticateToken, h]
  refine ⟨by rw [runProtected, hmw], hmw, ?_⟩
  intro v ah hd r hr
  rw [runProtected] at hr
  cases hmw2 : authenticateToken v ah with
  | rejectedTokenRequired => rw [hmw2] at hr; cases hr
  | rejectedInvalid => rw [hmw2] at hr; cases hr
  | authorized userId =>
    rw [hmw2] at hr
    exact ⟨userId, rfl, (RouteResult.handled.inj hr).symm⟩

/-- Witness for C7: a request with no authorization header at all, against
an always-failing verifier and the identity handler, is answered with the
401 credential-required response. -/
theorem no_credential_rejects_witness :
    extractToken none = none ∧
    (runProtected (fun _ => VerifyResult.err) none (fun n => n) =
        RouteResult.tokenRequired401 ∧
      authenticateToken (fun _ => VerifyResult.err) none =
        MwResult.rejectedTokenRequired) :=
  ⟨rfl,
    ⟨(no_credential_rejects_before_handler (fun _ => VerifyResult.err) none
        (fun n => n) rfl).1,
      (no_credential_rejects_before_handler (fun _ => VerifyResult.err) none
        (fun n => n) rfl).2.1⟩⟩

end AuthMw

namespace AuthApi

/-- One step of one call preserves the race invariant: a step can answer
201 only when the email is still absent, the insert then records it, and a
later insert of the same email hits the unique constraint. -/
lemma stepCall_preserves (db : List UserRec) (email p : String)
    (c other : CallState)
    (h1 : isCreated c.response = true → emailPresent db email = true)
    (h2 : isCreated other.response = true → emailPresent db email = true)
    (h3 : ¬(isCreated c.response = true ∧ isCreated other.response = true)) :
    (isCreated ((stepCall db email p c).2).response = true →
        emailPresent (stepCall db email p c).1 email = true) ∧
    (isCreated other.response = true →
        emailPresent (stepCall db email p c).1 email = true) ∧
    ¬(isCreated ((stepCall db email p c).2).response = true ∧
        isCreated other.response = true) := by
  by_cases hpc0 : c.pc = 0
  · rw [stepCall, if_pos hpc0]
    by_cases hsel : (selectByEmail db email).length > 0
    · rw [if_pos hsel]
      refine ⟨?_, h2, ?_⟩
      · intro h; cases h
      · rintro ⟨a, -⟩; cases a
    · rw [if_neg hsel]
      refine ⟨?_, h2, ?_⟩
      · intro h; cases h
      · rintro ⟨a, -⟩; cases a
  · by_cases hpc1 : c.pc = 1
    · rw [stepCall, if_neg hpc0, if_pos hpc1]
      by_cases hpres : emailPresent db email = true
      · rw [insertUser, if_pos hpres]
        refine ⟨?_, fun _ => hpres, ?_⟩
        · intro h; cases h
        · rintro ⟨a, -⟩; cases a
      · rw [insertUser, if_neg hpres]
        have hnew : emailPresent
            (db ++ [{ id := db.length + 1, email := email, password := p }]) email = true := by
          rw [emailPresent, List.any_append]
          simp [List.any_cons]
        refine ⟨fun _ => hnew, fun _ => hnew, fun ⟨_, hother⟩ => hpres (h2 hother)⟩
    · rw [stepCall, if_neg hpc0, if_neg hpc1]
      exact ⟨h1, h2, h3⟩

/-- The race invariant holds along every interleaving of the two calls. -/
lemma runTwo_preserves (sched : List Bool) (db : List UserRec)
    (email p1 p2 : String) (c1 c2 : CallState) (h : inv2 db email c1 c2) :
    inv2 (runTwo sched db email p1 p2 c1 c2).1 email
      (runTwo sched db email p1 p2 c1 c2).2.1
      (runTwo sched db email p1 p2 c1 c2).2.2 := by
  induction sched generalizing db c1 c2 with
  | nil => exact h
  | cons b rest ih =>
    cases b with
    | true =>
      rw [runTwo]
      apply ih
      have hs := stepCall_preserves db email p1 c1 c2 h.1 h.2.1 h.2.2
      exact ⟨hs.1, hs.2.1, hs.2.2⟩
    | false =>
      rw [runTwo]
      apply ih
      have hs := stepCall_preserves db email p2 c2 c1 h.2.1 h.1
        (fun ⟨a, b2⟩ => h.2.2 ⟨b2, a⟩)
      exact ⟨hs.2.1, hs.1, fun ⟨a, b2⟩ => hs.2.2 ⟨b2, a⟩⟩

/-- Claim C2 counterexample: interleaving the two calls as
SELECT₁, SELECT₂, INSERT₁, INSERT₂ on an empty table, the first call is
created (201) and the second call's INSERT hits the table's unique
constraint inside the `catch`, answering the 500 server error — not the
endpoint's duplicate-email 400 response that the claim requires, and not
via any single atomic check-and-insert: the handler demonstrably performs a
separate application-level read before its write. -/
theorem race_loser_gets_server_error :
    (runTwo [true, false, true, false] [] "a@x.com" "h1" "h2"
        initCall initCall).2.1.response = some (RegisterResponse.created 1 "a@x.com") ∧
    (runTwo [true, false, true, false] [] "a@x.com" "h1" "h2"
        initCall initCall).2.2.response = some RegisterResponse.serverError ∧
    some RegisterResponse.serverError ≠ some RegisterResponse.userExists := by
  refine ⟨rfl, rfl, by decide⟩

/-- Claim C2 (amended): for every interleaving of two concurrent
registrations with the same email, at most one call answers 201 — this is
guaranteed by the `UNIQUE` constraint on `users.email` at INSERT time, not
by an atomic check-and-insert: the handler performs an application-level
SELECT followed by an INSERT, and in the race the losing call answers the
generic 500 server error instead of the duplicate-email 400. -/
theorem concurrent_register_at_most_one_success (sched : List Bool)
    (db : List UserRec) (email p1 p2 : String) :
    ¬(isCreated ((runTwo sched db email p1 p2 initCall initCall).2.1.response) = true ∧
      isCreated ((runTwo sched db email p1 p2 initCall initCall).2.2.response) = true) :=
  (runTwo_preserves sched db email p1 p2 initCall initCall
    ⟨fun h => Bool.noConfusion h, fun h => Bool.noConfusion h,
      fun ⟨a, _⟩ => Bool.noConfusion a⟩).2.2

/-- Witness for the amended C2 at the fully adversarial interleaving on the
empty table. -/
theorem concurrent_register_at_most_one_success_witness :
    ¬(isCreated ((runTwo [true, false, true, false] [] "a@x.com" "h1" "h2"
        initCall initCall).2.1.response) = true ∧
      isCreated ((runTwo [true, false, true, false] [] "a@x.com" "h1" "h2"
        initCall initCall).2.2.response) = true) :=
  concurrent_register_at_most_one_success [true, false, true, false] []
    "a@x.com" "h1" "h2"

/-- Claim C8: a login that fails because the email is not registered and a
login that fails because the stored hash does not match produce the same
response value — the generic 401 invalid-credentials message — so the two
failure runs are indistinguishable to the client. -/
theorem login_failures_indistinguishable (db1 db2 : List UserRec)
    (check1 check2 : String → String → Bool) (e1 p1 e2 p2 : String)
    (h1 : selectByEmail db1 e1 = [])
    (h2 : ∃ u rest, selectByEmail db2 e2 = u :: rest ∧ check2 p2 u.password = false) :
    login db1 check1 e1 p1 = LoginResponse.invalidCredentials ∧
    login db2 check2 e2 p2 = LoginResponse.invalidCredentials ∧
    login db1 check1 e1 p1 = login db2 check2 e2 p2 := by
  obtain ⟨u, rest, hsel, hcheck⟩ := h2
  have g1 : login db1 check1 e1 p1 = LoginResponse.invalidCredentials := by
    rw [login, h1]
  have g2 : login db2 check2 e2 p2 = LoginResponse.invalidCredentials := by
    unfold login
    rw [hsel]
    simp [hcheck]
  exact ⟨g1, g2, g1.trans g2.symm⟩

/-- Witness for C8: an unregistered email against the empty table, and a
registered email with a rejecting password check, produce the same 401. -/
theorem login_failures_indistinguishable_witness :
    (selectByEmail [] "a@x.com" = [] ∧
      selectByEmail [{ id := 1, email := "b@x.com", password := "HASH" }] "b@x.com" =
        { id := 1, email := "b@x.com", password := "HASH" } :: [] ∧
      (fun _ _ => false : String → String → Bool) "wrong" "HASH" = false) ∧
    (login [] (fun _ _ => true) "a@x.com" "pw" = LoginResponse.invalidCredentials ∧
      login [{ id := 1, email := "b@x.com", password := "HASH" }] (fun _ _ => false)
          "b@x.com" "wrong" = LoginResponse.invalidCredentials ∧
      login [] (fun _ _ => true) "a@x.com" "pw" =
        login [{ id := 1, email := "b@x.com", password := "HASH" }] (fun _ _ => false)
          "b@x.com" "wrong") :=
  ⟨⟨rfl, by rw [selectByEmail]; simp, rfl⟩,
    login_failures_indistinguishable [] [{ id := 1, email := "b@x.com", password := "HASH" }]
      (fun _ _ => true) (fun _ _ => false) "a@x.com" "pw" "b@x.com" "wrong" rfl
      ⟨{ id := 1, email := "b@x.com", password := "HASH" }, [], by rw [selectByEmail]; simp, rfl⟩⟩


/-- Consistency of the interleaved model with the sequential handler: a
call that performs its SELECT and INSERT with no interference reaches
exactly the state and response of `register` run in isolation. -/
lemma solo_run_eq_register (db : List UserRec) (email p : String) :
    ((runTwo [true, true] db email p p initCall initCall).1,
      (runTwo [true, true] db email p p initCall initCall).2.1.response) =
      ((register db email p).1, some (register db email p).2) := by
  by_cases hsel : (selectByEmail db email).length > 0
  · simp [runTwo, stepCall, register, initCall, hsel]
  · cases hins : insertUser db email p with
    | inserted db2 u => simp [runTwo, stepCall, register, initCall, hsel, hins]
    | uniqueViolation => simp [runTwo, stepCall, register, initCall, hsel, hins]

end AuthApi
